import Mathlib

/-!
# Verification of the WikiToGrok URL classification and transformation engine

Shallow embedding of `src/utils/url-transformer.ts` (the core of the
WikiToGrok browser extension) together with the parts of the JavaScript /
web platform that the module calls into:

* `new URL(...)` — modelled by `parseURL`, following the WHATWG URL
  standard for `https`-style URLs with an authority component: the scheme
  is parsed and lowercased, the hostname is ASCII-lowercased and checked
  against the forbidden-host-code-point list, and the path is normalized
  by the standard path-state machine (`\` treated as `/`, single-dot and
  double-dot segments — including their percent-encoded spellings —
  collapsed), with query and fragment split off.
  Out of modelled scope (parsing such inputs yields `none` here):
  URLs without a `//` authority (opaque paths), scheme-relative magic for
  special schemes, percent-decoding/IDNA inside hostnames (a hostname
  containing `%` or a non-ASCII character is rejected), tab/newline
  stripping, and the percent-encoding of non-URL code points when a path
  is serialized.  None of the properties below depend on those corners.
* `String.prototype.replace` with a string pattern (first occurrence) —
  `replaceFirst`.
* `String.prototype.startsWith` / `endsWith` — `strStartsWith` /
  `strEndsWith`.
* `decodeURIComponent` — `percentDecode`, the ECMA-262 `Decode` algorithm
  with an empty reserved set: `%HH` escapes are collected and decoded as
  strict UTF-8; any malformed escape or invalid byte sequence fails (the
  JavaScript original throws `URIError`, modelled as `none`).

The repository functions (`isArticlePage`, `extractLanguage`,
`extractArticleName`, `transformToGrokipedia`, `decodeArticleName`,
`isLanguageEnabled`) are then translated line by line; JavaScript
exceptions caught by the original `try/catch` blocks correspond to the
`none` results of the fallible platform operations, so every embedded
function is total by construction.
-/

namespace WikiToGrok

/-! ## JavaScript string primitives -/

/-- `s.startsWith(p)` in JavaScript. -/
def strStartsWith (s p : String) : Bool :=
  s.data.take p.data.length = p.data

/-- `s.endsWith(p)` in JavaScript. -/
def strEndsWith (s p : String) : Bool :=
  p.data.length ≤ s.data.length ∧ s.data.drop (s.data.length - p.data.length) = p.data

/-- `s.replace(pat, repl)` with a string pattern replaces the first
occurrence only; on the underlying character list. -/
def replaceFirstL (pat repl : List Char) : List Char → List Char
  | [] => if pat = [] then repl else []
  | c :: rest =>
    if pat.isPrefixOf (c :: rest) then repl ++ (c :: rest).drop pat.length
    else c :: replaceFirstL pat repl rest

/-- `s.replace(pat, repl)` in JavaScript (string pattern, so only the
first occurrence is replaced; `repl` contains no `$` patterns). -/
def replaceFirst (s pat repl : String) : String :=
  ⟨replaceFirstL pat.data repl.data s.data⟩

/-- `s.replace(/_/g, ' ')` in JavaScript: a global single-character
replacement is a character map. -/
def replaceUnderscores (s : String) : String :=
  ⟨s.data.map (fun c => if c = '_' then ' ' else c)⟩

/-! ## `decodeURIComponent` (ECMA-262 Decode, empty reserved set) -/

/-- Value of a hexadecimal digit (`0-9`, `A-F`, `a-f`), or `none`. -/
def hexVal (c : Char) : Option Nat :=
  let n := c.toNat
  if 48 ≤ n ∧ n ≤ 57 then some (n - 48)
  else if 65 ≤ n ∧ n ≤ 70 then some (n - 55)
  else if 97 ≤ n ∧ n ≤ 102 then some (n - 87)
  else none

/-- First pass of `Decode`: turn every `%HH` escape into the byte it
denotes (`Sum.inl`), leaving unescaped characters as `Sum.inr`; a `%`
not followed by two hexadecimal digits is malformed. -/
def unescape : List Char → Option (List (Sum Nat Char))
  | [] => some []
  | '%' :: h₁ :: h₂ :: rest =>
    match hexVal h₁, hexVal h₂ with
    | some a, some b => (unescape rest).map (fun l => Sum.inl (16 * a + b) :: l)
    | _, _ => none
  | '%' :: [] => none
  | '%' :: [_] => none
  | c :: rest => (unescape rest).map (fun l => Sum.inr c :: l)

/-- Is `b` a UTF-8 continuation byte? -/
def isCont (b : Nat) : Bool := 0x80 ≤ b ∧ b < 0xC0

/-- Second pass of `Decode`: assemble the escaped bytes into code points
by strict UTF-8 (continuation bytes must themselves come from escapes;
overlong forms, surrogates and out-of-range code points are rejected,
exactly the cases where `decodeURIComponent` throws `URIError`). -/
def assemble : List (Sum Nat Char) → Option (List Char)
  | [] => some []
  | Sum.inr c :: rest => (assemble rest).map (c :: ·)
  | Sum.inl b :: rest =>
    if b < 0x80 then
      (assemble rest).map (Char.ofNat b :: ·)
    else if 0xC2 ≤ b ∧ b < 0xE0 then
      match rest with
      | Sum.inl b₂ :: rest₂ =>
        if isCont b₂ then
          (assemble rest₂).map (Char.ofNat ((b - 0xC0) * 64 + (b₂ - 0x80)) :: ·)
        else none
      | _ => none
    else if 0xE0 ≤ b ∧ b < 0xF0 then
      match rest with
      | Sum.inl b₂ :: Sum.inl b₃ :: rest₂ =>
        let cp := (b - 0xE0) * 4096 + (b₂ - 0x80) * 64 + (b₃ - 0x80)
        if isCont b₂ ∧ isCont b₃ ∧ 0x800 ≤ cp ∧ (cp < 0xD800 ∨ 0xDFFF < cp) then
          (assemble rest₂).map (Char.ofNat cp :: ·)
        else none
      | _ => none
    else if 0xF0 ≤ b ∧ b < 0xF5 then
      match rest with
      | Sum.inl b₂ :: Sum.inl b₃ :: Sum.inl b₄ :: rest₂ =>
        let cp := (b - 0xF0) * 262144 + (b₂ - 0x80) * 4096 + (b₃ - 0x80) * 64 + (b₄ - 0x80)
        if isCont b₂ ∧ isCont b₃ ∧ isCont b₄ ∧ 0x10000 ≤ cp ∧ cp ≤ 0x10FFFF then
          (assemble rest₂).map (Char.ofNat cp :: ·)
        else none
      | _ => none
    else none

/-- `decodeURIComponent(s)`: `none` models a thrown `URIError`. -/
def percentDecode (s : String) : Option String :=
  match unescape s.data with
  | none => none
  | some toks =>
    match assemble toks with
    | none => none
    | some cs => some ⟨cs⟩

/-! ## `new URL(...)` (WHATWG URL parser, authority-bearing URLs) -/

/-- The parsed fields of a URL that the transformer reads. -/
structure ParsedURL where
  scheme : String
  hostname : String
  pathname : String
deriving DecidableEq, Repr

/-- Characters allowed in a scheme after the first. -/
def isSchemeChar (c : Char) : Bool :=
  c.isAlpha ∨ c.isDigit ∨ c = '+' ∨ c = '-' ∨ c = '.'

/-- Scan the scheme up to the terminating `:`. -/
def schemeSpan : List Char → Option (List Char × List Char)
  | [] => none
  | c :: cs =>
    if c = ':' then some ([], cs)
    else if isSchemeChar c then (schemeSpan cs).map (fun p => (c :: p.1, p.2))
    else none

/-- A character that terminates the authority component (for special
schemes `\` counts as `/`). -/
def isAuthorityEnd (c : Char) : Bool :=
  c = '/' ∨ c = '\\' ∨ c = '?' ∨ c = '#'

/-- Path-segment separator (for special schemes both slashes). -/
def isSep (c : Char) : Bool := c = '/' ∨ c = '\\'

/-- WHATWG forbidden host code points (plus `%` and non-ASCII, which the
real parser would percent-decode / IDNA-map — out of modelled scope, so
they are rejected here). -/
def isHostChar (c : Char) : Bool :=
  ' ' < c ∧ c.toNat < 0x7F ∧
    c ≠ '#' ∧ c ≠ '/' ∧ c ≠ ':' ∧ c ≠ '<' ∧ c ≠ '>' ∧ c ≠ '?' ∧
    c ≠ '@' ∧ c ≠ '[' ∧ c ≠ '\\' ∧ c ≠ ']' ∧ c ≠ '^' ∧ c ≠ '|' ∧ c ≠ '%'

/-- Parse the authority: strip `user:info@`, split off the `:port`
(digits only), validate and ASCII-lowercase the host. -/
def parseHost (auth : List Char) : Option String :=
  let hostPort := if auth.contains '@'
    then (auth.reverse.takeWhile (fun c => c ≠ '@')).reverse
    else auth
  let host := hostPort.takeWhile (fun c => c ≠ ':')
  let port := hostPort.dropWhile (fun c => c ≠ ':')
  if host = [] then none
  else if ¬ host.all isHostChar then none
  else if ¬ (port.drop 1).all Char.isDigit then none
  else some ⟨host.map Char.toLower⟩

/-- Split path characters into segments at `/` (and `\`). -/
def segmentsOfL : List Char → List (List Char)
  | [] => [[]]
  | c :: cs =>
    if isSep c then [] :: segmentsOfL cs
    else
      match segmentsOfL cs with
      | s :: rest => (c :: s) :: rest
      | [] => [[c]]

/-- A single-dot path segment (`.` or a percent-encoded spelling,
case-insensitively). -/
def isSingleDotL (s : List Char) : Bool :=
  s = ['.'] ∨ s.map Char.toLower = ['%', '2', 'e']

/-- A double-dot path segment (`..` or a percent-encoded spelling,
case-insensitively). -/
def isDoubleDotL (s : List Char) : Bool :=
  s = ['.', '.'] ∨ s.map Char.toLower = ['.', '%', '2', 'e'] ∨
    s.map Char.toLower = ['%', '2', 'e', '.'] ∨
    s.map Char.toLower = ['%', '2', 'e', '%', '2', 'e']

/-- One step of the WHATWG path state on an inner segment: double dots
pop the previous segment, single dots vanish, anything else is kept. -/
def stepSegL (acc : List (List Char)) (s : List Char) : List (List Char) :=
  if isDoubleDotL s then acc.dropLast
  else if isSingleDotL s then acc
  else acc ++ [s]

/-- Normalize a non-empty segment list: inner segments via `stepSegL`; a
final dot segment additionally leaves a trailing empty segment, as the
path state does at end of input. -/
def normalizeSegsL (segs : List (List Char)) : List (List Char) :=
  match segs.getLast? with
  | none => []
  | some last =>
    let init := segs.dropLast.foldl stepSegL []
    if isDoubleDotL last then init.dropLast ++ [[]]
    else if isSingleDotL last then init ++ [[]]
    else init ++ [last]

/-- Join normalized segments with `/`. -/
def serializeSegsL : List (List Char) → List Char
  | [] => []
  | [s] => s
  | s :: rest => s ++ '/' :: serializeSegsL rest

/-- Serialize a segment list back to a pathname. -/
def serializePath (segs : List (List Char)) : String :=
  ⟨'/' :: serializeSegsL segs⟩

/-- Not a query or fragment delimiter. -/
def isPathChar (c : Char) : Bool := c ≠ '?' ∧ c ≠ '#'

/-- Drop the single leading separator the path-start state consumes. -/
def dropLeadSep : List Char → List Char
  | [] => []
  | c :: cs => if isSep c then cs else c :: cs

/-- `new URL(url)` on the character list: scheme, `//`, authority, path
(normalized), with query and fragment split off and discarded. -/
def parseURLChars (cs : List Char) : Option ParsedURL :=
  match cs with
  | [] => none
  | c₀ :: _ =>
    if ¬ c₀.isAlpha then none
    else
      match schemeSpan cs with
      | none => none
      | some (schemeChars, rest) =>
        match rest with
        | '/' :: '/' :: rest₂ =>
          let auth := rest₂.takeWhile (fun c => ¬ isAuthorityEnd c)
          let rest₃ := rest₂.dropWhile (fun c => ¬ isAuthorityEnd c)
          match parseHost auth with
          | none => none
          | some host =>
            let raw := rest₃.takeWhile isPathChar
            some { scheme := ⟨schemeChars.map Char.toLower⟩
                   hostname := host
                   pathname := serializePath (normalizeSegsL (segmentsOfL (dropLeadSep raw))) }
        | _ => none

/-- `new URL(url)`: `none` models a thrown `TypeError`. -/
def parseURL (url : String) : Option ParsedURL :=
  parseURLChars url.data

/-! ## The transformer module (`src/utils/url-transformer.ts`) -/

/-- Wikipedia namespaces that should NOT be redirected (`EXCLUDED_NAMESPACES`). -/
def EXCLUDED_NAMESPACES : List String :=
  [ "Special:", "Wikipedia:", "Talk:", "User:", "User_talk:",
    "File:", "File_talk:", "MediaWiki:", "MediaWiki_talk:",
    "Template:", "Template_talk:", "Help:", "Help_talk:",
    "Category:", "Category_talk:", "Portal:", "Portal_talk:",
    "Draft:", "Draft_talk:", "TimedText:", "Module:", "Module_talk:",
    "Gadget:", "Gadget_talk:", "Gadget_definition:", "Gadget_definition_talk:" ]

/-- Base URL for Grokipedia (`GROKIPEDIA_BASE_URL`). -/
def GROKIPEDIA_BASE_URL : String := "https://grokipedia.com"

/-- Result of URL transformation (`TransformResult`); the optional
TypeScript fields become `Option String`. -/
structure TransformResult where
  success : Bool
  grokipediaUrl : Option String
  articleName : Option String
  language : Option String
  error : Option String
deriving DecidableEq, Repr

/-- `isArticlePage(url)`: Wikipedia domain, `/wiki/` path, and the path
remainder not in an excluded namespace; `try/catch` returns `false` when
URL parsing fails. -/
def isArticlePage (url : String) : Bool :=
  match parseURL url with
  | none => false
  | some urlObj =>
    if ¬ strEndsWith urlObj.hostname ".wikipedia.org" then false
    else if ¬ strStartsWith urlObj.pathname "/wiki/" then false
    else
      let articlePath := replaceFirst urlObj.pathname "/wiki/" ""
      if EXCLUDED_NAMESPACES.any (fun ns => strStartsWith articlePath ns) then false
      else if articlePath = "" ∨ articlePath = "Main_Page" then true
      else true

/-- `extractLanguage(url)`: the hostname against
`/^([a-z]{2,3})\.wikipedia\.org$/`, then `/^(simple)\.wikipedia\.org$/`;
`null` (here `none`) on parse failure or mismatch. -/
def extractLanguage (url : String) : Option String :=
  match parseURL url with
  | none => none
  | some urlObj =>
    let hostname := urlObj.hostname
    if strEndsWith hostname ".wikipedia.org" then
      let lang : String := ⟨hostname.data.take (hostname.data.length - 14)⟩
      if 2 ≤ lang.data.length ∧ lang.data.length ≤ 3 ∧
          lang.data.all (fun c => 'a' ≤ c ∧ c ≤ 'z') then
        some lang
      else if lang = "simple" then some "simple"
      else none
    else none

/-- `extractArticleName(url)`: the raw pathname after `/wiki/`, URL
encoding kept as-is; an empty remainder is falsy (`articlePath || null`),
so it yields `none`. -/
def extractArticleName (url : String) : Option String :=
  match parseURL url with
  | none => none
  | some urlObj =>
    if ¬ strStartsWith urlObj.pathname "/wiki/" then none
    else
      let articlePath := replaceFirst urlObj.pathname "/wiki/" ""
      if articlePath = "" then none else some articlePath

/-- `transformToGrokipedia(wikipediaUrl)`. -/
def transformToGrokipedia (wikipediaUrl : String) : TransformResult :=
  if ¬ isArticlePage wikipediaUrl then
    { success := false, grokipediaUrl := none, articleName := none,
      language := none, error := some "Not a Wikipedia article page" }
  else
    match extractLanguage wikipediaUrl with
    | none =>
      { success := false, grokipediaUrl := none, articleName := none,
        language := none, error := some "Could not extract language from URL" }
    | some language =>
      match extractArticleName wikipediaUrl with
      | none =>
        { success := false, grokipediaUrl := none, articleName := none,
          language := none, error := some "Could not extract article name from URL" }
      | some articleName =>
        { success := true
          grokipediaUrl := some (GROKIPEDIA_BASE_URL ++ "/page/" ++ articleName)
          articleName := some articleName
          language := some language
          error := none }

/-- `decodeArticleName(articleName)`: decode URL encoding then replace
underscores with spaces; if decoding fails, just replace underscores. -/
def decodeArticleName (articleName : String) : String :=
  match percentDecode articleName with
  | some decoded => replaceUnderscores decoded
  | none => replaceUnderscores articleName

/-- `isLanguageEnabled(language, enabledLanguages)`: an empty list means
all languages are enabled, otherwise `Array.prototype.includes` (exact
string equality). -/
def isLanguageEnabled (language : String) (enabledLanguages : List String) : Bool :=
  if enabledLanguages.length = 0 then true
  else enabledLanguages.contains language

/-- The head character of a namespace is benign: it cannot begin a dot
path segment (not `.` or `%`, even after lowercasing). -/
def nsGoodHead : List Char → Bool
  | [] => false
  | c :: _ => c ≠ '.' ∧ c ≠ '%' ∧ c.toLower ≠ '.' ∧ c.toLower ≠ '%'

/-- A namespace string is benign for path parsing: non-empty, its head
cannot start a dot segment, and none of its characters is a path
separator or a query/fragment delimiter. -/
def nsGood (p : String) : Bool :=
  nsGoodHead p.data ∧ p.data.all (fun c => isSep c = false ∧ isPathChar c = true)

/-! ## Helper lemmas about the string primitives -/

theorem strStartsWith_eq_true {s p : String} :
    strStartsWith s p = true ↔ s.data.take p.data.length = p.data := by
  simp [strStartsWith]

theorem strStartsWith_append (p t : String) : strStartsWith (p ++ t) p = true := by
  simp [strStartsWith, String.data_append, List.take_left]

theorem startsWith_split {s p : String} (h : strStartsWith s p = true) :
    s = p ++ ⟨s.data.drop p.data.length⟩ := by
  rw [strStartsWith_eq_true] at h
  rw [String.ext_iff, String.data_append]
  show s.data = p.data ++ s.data.drop p.data.length
  calc s.data = s.data.take p.data.length ++ s.data.drop p.data.length :=
        (List.take_append_drop _ _).symm
    _ = p.data ++ s.data.drop p.data.length := by rw [h]

theorem strEndsWith_eq_true {s p : String} :
    strEndsWith s p = true ↔
      p.data.length ≤ s.data.length ∧
        s.data.drop (s.data.length - p.data.length) = p.data := by
  simp [strEndsWith]

theorem strEndsWith_append (t p : String) : strEndsWith (t ++ p) p = true := by
  simp only [strEndsWith, String.data_append, List.length_append,
    Nat.add_sub_cancel, List.drop_left, decide_eq_true_eq]
  exact ⟨Nat.le_add_left _ _, trivial⟩

theorem endsWith_split {s p : String} (h : strEndsWith s p = true) :
    s = ⟨s.data.take (s.data.length - p.data.length)⟩ ++ p := by
  rw [strEndsWith_eq_true] at h
  rw [String.ext_iff, String.data_append]
  show s.data = s.data.take (s.data.length - p.data.length) ++ p.data
  calc s.data
      = s.data.take (s.data.length - p.data.length) ++
          s.data.drop (s.data.length - p.data.length) :=
        (List.take_append_drop _ _).symm
    _ = s.data.take (s.data.length - p.data.length) ++ p.data := by rw [h.2]

theorem replaceFirstL_append (pat tail : List Char) :
    replaceFirstL pat [] (pat ++ tail) = tail := by
  match pat with
  | [] =>
    match tail with
    | [] => rfl
    | c :: rest => simp [replaceFirstL, List.isPrefixOf_iff_prefix]
  | a :: pa =>
    show replaceFirstL (a :: pa) [] (a :: (pa ++ tail)) = tail
    rw [replaceFirstL, if_pos]
    · simp [List.drop_left (a :: pa) tail]
    · exact List.isPrefixOf_iff_prefix.mpr (List.prefix_append _ _)

theorem replaceFirst_append (p t : String) : replaceFirst (p ++ t) p "" = t := by
  show (⟨replaceFirstL p.data [] (p ++ t).data⟩ : String) = t
  rw [String.data_append, replaceFirstL_append]

/-! ## Helper lemmas about the transformer -/

theorem extractArticleName_eq {url : String} {u : ParsedURL} (rest : String)
    (hp : parseURL url = some u) (hsplit : u.pathname = "/wiki/" ++ rest)
    (hne : rest ≠ "") :
    extractArticleName url = some rest := by
  simp [extractArticleName, hp, hsplit, strStartsWith_append, replaceFirst_append, hne]

theorem extractArticleName_some {url a : String}
    (h : extractArticleName url = some a) :
    ∃ u, parseURL url = some u ∧ u.pathname = "/wiki/" ++ a ∧ a ≠ "" := by
  cases hp : parseURL url with
  | none => simp [extractArticleName, hp] at h
  | some u =>
    simp only [extractArticleName, hp] at h
    split at h
    next => exact absurd h (by simp)
    next hw =>
      split at h
      next => exact absurd h (by simp)
      next hz =>
        have hw' : strStartsWith u.pathname "/wiki/" = true := not_not.mp hw
        have hsplit := startsWith_split hw'
        have hrep : replaceFirst u.pathname "/wiki/" "" =
            ⟨u.pathname.data.drop ("/wiki/".data.length)⟩ := by
          conv_lhs => rw [hsplit]
          exact replaceFirst_append _ _
        rw [hrep] at h hz
        refine ⟨u, rfl, ?_, ?_⟩
        · rw [← Option.some_inj.mp h]; exact hsplit
        · rw [← Option.some_inj.mp h]; exact hz

/-! ## Symbolic evaluation of the URL parser on wiki URLs -/

theorem ns_all_good : ∀ p ∈ EXCLUDED_NAMESPACES, nsGood p = true := by decide

theorem parseURLChars_en_wiki (t : List Char) :
    parseURLChars ("https://en.wikipedia.org/wiki/".data ++ t) =
      some { scheme := "https", hostname := "en.wikipedia.org",
             pathname := serializePath (normalizeSegsL (segmentsOfL
               ('w' :: 'i' :: 'k' :: 'i' :: '/' :: t.takeWhile isPathChar))) } := rfl

theorem takeWhile_append_all {q : Char → Bool} {l₁ : List Char} (l₂ : List Char)
    (h : ∀ c ∈ l₁, q c = true) :
    (l₁ ++ l₂).takeWhile q = l₁ ++ l₂.takeWhile q := by
  induction l₁ with
  | nil => simp
  | cons a l ih =>
    rw [List.cons_append, List.takeWhile_cons, if_pos (h a (by simp)),
      ih (fun c hc => h c (by simp [hc])), List.cons_append]

theorem segmentsOfL_no_sep (u : List Char) (h : ∀ c ∈ u, isSep c = false) :
    segmentsOfL u = [u] := by
  induction u with
  | nil => rfl
  | cons c cs ih =>
    have hc : isSep c = false := h c (by simp)
    have ihcs : segmentsOfL cs = [cs] := ih (fun c' hc' => h c' (by simp [hc']))
    simp [segmentsOfL, hc, ihcs]

theorem segmentsOfL_wiki (u : List Char) (h : ∀ c ∈ u, isSep c = false) :
    segmentsOfL ('w' :: 'i' :: 'k' :: 'i' :: '/' :: u) = [['w', 'i', 'k', 'i'], u] := by
  have hu := segmentsOfL_no_sep u h
  simp [segmentsOfL, isSep, hu]

theorem not_dot_head {c : Char} (rest : List Char)
    (h1 : c ≠ '.') (_h2 : c ≠ '%') (h3 : c.toLower ≠ '.') (h4 : c.toLower ≠ '%') :
    isSingleDotL (c :: rest) = false ∧ isDoubleDotL (c :: rest) = false := by
  constructor
  · simp [isSingleDotL, h1, h3, h4]
  · simp [isDoubleDotL, h1, h3, h4]

theorem normalizeSegsL_wiki (u : List Char)
    (hs : isSingleDotL u = false) (hd : isDoubleDotL u = false) :
    normalizeSegsL [['w', 'i', 'k', 'i'], u] = [['w', 'i', 'k', 'i'], u] := by
  have hw1 : isDoubleDotL ['w', 'i', 'k', 'i'] = false := by decide
  have hw2 : isSingleDotL ['w', 'i', 'k', 'i'] = false := by decide
  simp [normalizeSegsL, stepSegL, hs, hd, hw1, hw2]

/-! ## The claims -/

/-- C6: on every input string on which URL parsing fails, each operation
fails closed rather than raising: `isArticlePage` returns `false`,
`extractLanguage` returns `none` and `extractArticleName` returns `none`
(in the embedding every function is total, so no operation can throw at
all; the `try/catch` of the original is the `none` case here). -/
theorem c6_parse_failure_fails_closed (s : String) (h : parseURL s = none) :
    isArticlePage s = false ∧ extractLanguage s = none ∧
      extractArticleName s = none := by
  refine ⟨?_, ?_, ?_⟩ <;> simp [isArticlePage, extractLanguage, extractArticleName, h]

theorem c6_parse_failure_fails_closed_witness :
    parseURL "not a url" = none ∧
      (isArticlePage "not a url" = false ∧ extractLanguage "not a url" = none ∧
        extractArticleName "not a url" = none) :=
  ⟨by decide, c6_parse_failure_fails_closed "not a url" (by decide)⟩

/-- C8: `isLanguageEnabled x []` is `true` for every `x` (the empty allow
list is the "all languages enabled" sentinel); for a non-empty list `L`,
`isLanguageEnabled x L` is `true` exactly when `x` is a member of `L`
under exact string equality. -/
theorem c8_language_allow_list :
    (∀ x : String, isLanguageEnabled x [] = true) ∧
      ∀ (x : String) (L : List String), L ≠ [] →
        (isLanguageEnabled x L = true ↔ x ∈ L) := by
  refine ⟨fun x => rfl, fun x L hL => ?_⟩
  rw [isLanguageEnabled, if_neg (by simpa using hL)]
  exact List.elem_iff

theorem c8_language_allow_list_witness :
    isLanguageEnabled "ja" [] = true ∧
      isLanguageEnabled "en" ["en", "de"] = true ∧
      ¬ isLanguageEnabled "ja" ["en", "de"] = true :=
  ⟨c8_language_allow_list.1 "ja",
    (c8_language_allow_list.2 "en" ["en", "de"] (by decide)).mpr (by decide),
    fun h => by
      have := (c8_language_allow_list.2 "ja" ["en", "de"] (by decide)).mp h
      simp at this⟩

/-- C9: every result of `transformToGrokipedia` has one of exactly two
shapes, with no partial success: either `success = true` with the
destination URL, the article name and the language all present and no
error, or `success = false` with an error present and the three success
fields absent. -/
theorem c9_outcome_shapes (url : String) :
    (∃ g a l, transformToGrokipedia url =
        { success := true, grokipediaUrl := some g, articleName := some a,
          language := some l, error := none }) ∨
      ∃ e, transformToGrokipedia url =
        { success := false, grokipediaUrl := none, articleName := none,
          language := none, error := some e } := by
  by_cases hart : isArticlePage url
  · cases hl : extractLanguage url with
    | none =>
      right
      refine ⟨"Could not extract language from URL", ?_⟩
      simp [transformToGrokipedia, hart, hl]
    | some l =>
      cases ha : extractArticleName url with
      | none =>
        right
        refine ⟨"Could not extract article name from URL", ?_⟩
        simp [transformToGrokipedia, hart, hl, ha]
      | some a =>
        left
        refine ⟨GROKIPEDIA_BASE_URL ++ "/page/" ++ a, a, l, ?_⟩
        simp [transformToGrokipedia, hart, hl, ha]
  · right
    refine ⟨"Not a Wikipedia article page", ?_⟩
    simp [transformToGrokipedia, hart]

/-- C2: `transformToGrokipedia` evaluates its checks in the fixed order —
candidate check, then language extraction, then article-name extraction —
and short-circuits: the first failing check returns immediately with
`success = false` and a reason distinct to that check, and if all three
pass the result has `success = true`. -/
theorem c2_short_circuit_order (s : String) :
    (isArticlePage s = false →
        transformToGrokipedia s =
          { success := false, grokipediaUrl := none, articleName := none,
            language := none, error := some "Not a Wikipedia article page" }) ∧
      (isArticlePage s = true → extractLanguage s = none →
        transformToGrokipedia s =
          { success := false, grokipediaUrl := none, articleName := none,
            language := none,
            error := some "Could not extract language from URL" }) ∧
      (∀ l, isArticlePage s = true → extractLanguage s = some l →
          extractArticleName s = none →
        transformToGrokipedia s =
          { success := false, grokipediaUrl := none, articleName := none,
            language := none,
            error := some "Could not extract article name from URL" }) ∧
      ∀ l a, isArticlePage s = true → extractLanguage s = some l →
          extractArticleName s = some a →
        (transformToGrokipedia s).success = true := by
  refine ⟨fun h => ?_, fun h hl => ?_, fun l h hl ha => ?_, fun l a h hl ha => ?_⟩
  · simp [transformToGrokipedia, h]
  · simp [transformToGrokipedia, h, hl]
  · simp [transformToGrokipedia, h, hl, ha]
  · simp [transformToGrokipedia, h, hl, ha]

theorem c2_short_circuit_order_witness :
    (transformToGrokipedia "https://example.com/wiki/Foo" =
        { success := false, grokipediaUrl := none, articleName := none,
          language := none, error := some "Not a Wikipedia article page" }) ∧
      (transformToGrokipedia "https://en.m.wikipedia.org/wiki/Foo" =
        { success := false, grokipediaUrl := none, articleName := none,
          language := none,
          error := some "Could not extract language from URL" }) ∧
      (transformToGrokipedia "https://en.wikipedia.org/wiki/" =
        { success := false, grokipediaUrl := none, articleName := none,
          language := none,
          error := some "Could not extract article name from URL" }) ∧
      (transformToGrokipedia "https://de.wikipedia.org/wiki/Berlin").success = true :=
  ⟨(c2_short_circuit_order "https://example.com/wiki/Foo").1 (by decide),
    (c2_short_circuit_order "https://en.m.wikipedia.org/wiki/Foo").2.1
      (by decide) (by decide),
    (c2_short_circuit_order "https://en.wikipedia.org/wiki/").2.2.1 "en"
      (by decide) (by decide) (by decide),
    (c2_short_circuit_order "https://de.wikipedia.org/wiki/Berlin").2.2.2 "de" "Berlin"
      (by decide) (by decide) (by decide)⟩

/-- C7: `decodeArticleName` percent-decodes its argument and then replaces
every underscore with a space; if percent-decoding fails it skips the
decode step but still replaces every underscore with a space (no
underscore survives in the output, and the function is total, so it never
throws); the spec's three examples evaluate as stated. -/
theorem c7_decode_for_display :
    (∀ s : String,
        (∀ d, percentDecode s = some d →
          decodeArticleName s = replaceUnderscores d) ∧
        (percentDecode s = none → decodeArticleName s = replaceUnderscores s) ∧
        ∀ c ∈ (decodeArticleName s).data, c ≠ '_') ∧
      decodeArticleName "Albert_Einstein" = "Albert Einstein" ∧
      decodeArticleName "S%C3%A1mi_people" = "Sámi people" ∧
      decodeArticleName "Invalid%ZZ" = "Invalid%ZZ" := by
  refine ⟨fun s => ⟨?_, ?_, ?_⟩, by decide, by decide, by decide⟩
  · intro d hd; simp [decodeArticleName, hd]
  · intro hn; simp [decodeArticleName, hn]
  · intro c hc
    have key : ∀ t : String, c ∈ (replaceUnderscores t).data → c ≠ '_' := by
      intro t ht
      simp only [replaceUnderscores, List.mem_map] at ht
      obtain ⟨a, -, ha⟩ := ht
      rw [← ha]
      split
      · decide
      · assumption
    unfold decodeArticleName at hc
    cases h : percentDecode s with
    | none => rw [h] at hc; exact key s hc
    | some d => rw [h] at hc; exact key d hc

theorem c7_decode_for_display_witness :
    decodeArticleName "a%5F_b" = replaceUnderscores "a__b" ∧
      decodeArticleName "bad%GG" = replaceUnderscores "bad%GG" :=
  ⟨(c7_decode_for_display.1 "a%5F_b").1 "a__b" (by decide),
    (c7_decode_for_display.1 "bad%GG").2.1 (by decide)⟩

/-- C5: a URL whose parsed host is a recognized language subdomain of
wikipedia.org and whose parsed path is exactly `/wiki/` is accepted by
`isArticlePage` (the empty remainder is a valid candidate), yet
`transformToGrokipedia` on the same URL fails with the
article-name-not-extractable reason, because `extractArticleName` treats
the empty remainder as `none`. -/
theorem c5_bare_wiki_inconsistency (url : String) (u : ParsedURL) (l : String)
    (hp : parseURL url = some u)
    (hh : strEndsWith u.hostname ".wikipedia.org" = true)
    (hpath : u.pathname = "/wiki/")
    (hl : extractLanguage url = some l) :
    isArticlePage url = true ∧
      transformToGrokipedia url =
        { success := false, grokipediaUrl := none, articleName := none,
          language := none,
          error := some "Could not extract article name from URL" } := by
  have hart : isArticlePage url = true := by
    simp only [isArticlePage, hp, hpath, hh]
    decide
  have hname : extractArticleName url = none := by
    simp only [extractArticleName, hp, hpath]
    decide
  exact ⟨hart, by simp [transformToGrokipedia, hart, hl, hname]⟩

theorem c5_bare_wiki_inconsistency_witness :
    isArticlePage "https://en.wikipedia.org/wiki/" = true ∧
      transformToGrokipedia "https://en.wikipedia.org/wiki/" =
        { success := false, grokipediaUrl := none, articleName := none,
          language := none,
          error := some "Could not extract article name from URL" } :=
  c5_bare_wiki_inconsistency "https://en.wikipedia.org/wiki/"
    { scheme := "https", hostname := "en.wikipedia.org", pathname := "/wiki/" }
    "en" (by decide) (by decide) (by decide) (by decide)

/-- C1: whenever `transformToGrokipedia` succeeds, the destination URL is
the fixed base `https://grokipedia.com` concatenated with `/page/` and
the raw article name, where the article name is exactly the parsed
pathname with the `/wiki/` marker stripped — a substring of the path, so
no percent-decoding or re-encoding is applied to it and no query string
or fragment of the source URL (which the parsed pathname excludes by
construction) appears in the destination. -/
theorem c1_destination_concatenation (url : String) (r : TransformResult)
    (h : transformToGrokipedia url = r) (hs : r.success = true) :
    ∃ (u : ParsedURL) (name : String),
      parseURL url = some u ∧ u.pathname = "/wiki/" ++ name ∧ name ≠ "" ∧
        r.articleName = some name ∧
        r.grokipediaUrl = some ("https://grokipedia.com/page/" ++ name) ∧
        r.language = extractLanguage url ∧ r.error = none := by
  by_cases hart : isArticlePage url
  · cases hl : extractLanguage url with
    | none =>
      rw [(c2_short_circuit_order url).2.1 hart hl] at h
      rw [← h] at hs
      simp at hs
    | some l =>
      cases ha : extractArticleName url with
      | none =>
        rw [(c2_short_circuit_order url).2.2.1 l hart hl ha] at h
        rw [← h] at hs
        simp at hs
      | some a =>
        simp only [transformToGrokipedia, hart, hl, ha] at h
        obtain ⟨u, hu, hsplit, hne⟩ := extractArticleName_some ha
        refine ⟨u, a, hu, hsplit, hne, ?_, ?_, ?_, ?_⟩ <;> rw [← h]
        · simp
        · show some (GROKIPEDIA_BASE_URL ++ "/page/" ++ a) = _
          rw [show GROKIPEDIA_BASE_URL ++ "/page/" = "https://grokipedia.com/page/"
            from by decide]
        · simp [hl]
        · simp
  · rw [(c2_short_circuit_order url).1 (by simpa using hart)] at h
    rw [← h] at hs
    simp at hs

theorem c1_destination_concatenation_witness :
    ∃ (u : ParsedURL) (name : String),
      parseURL "https://en.wikipedia.org/wiki/S%C3%A1mi_people" = some u ∧
        u.pathname = "/wiki/" ++ name ∧ name ≠ "" ∧
        (transformToGrokipedia "https://en.wikipedia.org/wiki/S%C3%A1mi_people").articleName =
          some name ∧
        (transformToGrokipedia "https://en.wikipedia.org/wiki/S%C3%A1mi_people").grokipediaUrl =
          some ("https://grokipedia.com/page/" ++ name) ∧
        (transformToGrokipedia "https://en.wikipedia.org/wiki/S%C3%A1mi_people").language =
          extractLanguage "https://en.wikipedia.org/wiki/S%C3%A1mi_people" ∧
        (transformToGrokipedia "https://en.wikipedia.org/wiki/S%C3%A1mi_people").error = none :=
  c1_destination_concatenation "https://en.wikipedia.org/wiki/S%C3%A1mi_people"
    (transformToGrokipedia "https://en.wikipedia.org/wiki/S%C3%A1mi_people")
    rfl (by decide)

/-- C10: `extractArticleName` ignores the hostname entirely — for every
URL that parses with a pathname starting with `/wiki/` and a non-empty
remainder, it returns that remainder even when the hostname is not a
wikipedia.org subdomain, so extraction alone does not imply the URL is a
redirect candidate (witnessed by `https://example.com/wiki/Foo`, whose
name extracts although `isArticlePage` rejects it). -/
theorem c10_extract_ignores_host :
    (∀ (url : String) (u : ParsedURL), parseURL url = some u →
        strStartsWith u.pathname "/wiki/" = true →
        u.pathname.data.drop 6 ≠ [] →
        extractArticleName url = some ⟨u.pathname.data.drop 6⟩) ∧
      extractArticleName "https://example.com/wiki/Foo" = some "Foo" ∧
      isArticlePage "https://example.com/wiki/Foo" = false := by
  refine ⟨?_, by decide, by decide⟩
  intro url u hp hw hne
  refine extractArticleName_eq ⟨u.pathname.data.drop 6⟩ hp ?_ ?_
  · exact startsWith_split hw
  · simpa [String.ext_iff] using hne

theorem c10_extract_ignores_host_witness :
    extractArticleName "https://no-wiki.example/wiki/Bar" = some "Bar" := by
  have := c10_extract_ignores_host.1 "https://no-wiki.example/wiki/Bar"
    { scheme := "https", hostname := "no-wiki.example", pathname := "/wiki/Bar" }
    (by decide) (by decide) (by decide)
  simpa using this

/-- C4 (counterexample): the claim says uppercase letters in the input
yield `absent`, but URL parsing lowercases the hostname before the
pattern is matched, so `https://EN.wikipedia.org/wiki/X` — uppercase in
the input — yields the language code `en`, not `absent`. -/
theorem c4_uppercase_counterexample :
    extractLanguage "https://EN.wikipedia.org/wiki/X" = some "en" := by
  decide

/-- C4 (amended): `extractLanguage` returns a language code exactly when
the parsed hostname — which URL parsing has already ASCII-lowercased, so
uppercase input is accepted and reported in lowercase rather than
rejected — is one subdomain label of 2–3 lowercase ASCII letters, or the
literal label `simple`, followed by `.wikipedia.org`; any other parsed
hostname shape (no subdomain, extra subdomains, digits, wrong label
length) or an unparseable URL yields `none`. -/
theorem c4_language_pattern (url c : String) :
    extractLanguage url = some c ↔
      ∃ u, parseURL url = some u ∧
        ((2 ≤ c.data.length ∧ c.data.length ≤ 3 ∧
            c.data.all (fun ch => 'a' ≤ ch ∧ ch ≤ 'z') = true ∧
            u.hostname = c ++ ".wikipedia.org") ∨
          (c = "simple" ∧ u.hostname = "simple.wikipedia.org")) := by
  constructor
  · intro h
    cases hp : parseURL url with
    | none => rw [extractLanguage, hp] at h; exact absurd h (by simp)
    | some u =>
      refine ⟨u, rfl, ?_⟩
      simp only [extractLanguage, hp] at h
      by_cases hE : strEndsWith u.hostname ".wikipedia.org" = true
      · rw [if_pos hE] at h
        have hsplit := endsWith_split hE
        rw [show (".wikipedia.org".data.length) = 14 from by decide] at hsplit
        split at h
        next hcond =>
          left
          rw [Option.some_inj] at h
          rw [← h]
          exact ⟨hcond.1, hcond.2.1, hcond.2.2, hsplit⟩
        next =>
          split at h
          next hsimple =>
            right
            rw [Option.some_inj] at h
            refine ⟨h.symm, ?_⟩
            rw [hsimple] at hsplit
            rw [hsplit]
            decide
          next => exact absurd h (by simp)
      · rw [if_neg hE] at h; exact absurd h (by simp)
  · rintro ⟨u, hp, hshape⟩
    rcases hshape with ⟨h2, h3, hall, hh⟩ | ⟨hc, hh⟩
    · simp only [extractLanguage, hp]
      rw [if_pos (by rw [hh]; exact strEndsWith_append c ".wikipedia.org")]
      have hlang : (⟨u.hostname.data.take (u.hostname.data.length - 14)⟩ : String) = c := by
        rw [hh, String.data_append, List.length_append,
          show (".wikipedia.org".data.length) = 14 from by decide,
          Nat.add_sub_cancel, List.take_left]
      have hld : u.hostname.data.take (u.hostname.data.length - 14) = c.data :=
        congrArg String.data hlang
      rw [if_pos]
      · rw [hlang]
      · rw [hld]
        exact ⟨h2, h3, hall⟩
    · subst hc
      simp only [extractLanguage, hp, hh]
      decide

/-- C3 (counterexample): the claim fails as stated — for the namespace
prefix `Talk:` and the suffix `/../Foo`, the URL's path is normalized by
the parser (`/wiki/Talk:/../Foo` becomes `/wiki/Foo`), the namespace
segment disappears, and `isArticlePage` returns `true`. -/
theorem c3_namespace_counterexample :
    "Talk:" ∈ EXCLUDED_NAMESPACES ∧
      isArticlePage ("https://en.wikipedia.org/wiki/" ++ "Talk:" ++ "/../Foo") = true := by
  constructor
  · decide
  · decide

/-- C3 (amended): for every namespace prefix `p` in `EXCLUDED_NAMESPACES`
and every suffix `s` that contains no path separator (`/` or `\` — a
separator would let URL path normalization collapse the namespace
segment via dot segments), `isArticlePage` applied to
`https://en.wikipedia.org/wiki/` ++ `p` ++ `s` returns `false`. -/
theorem c3_namespace_exclusion (p s : String) (hmem : p ∈ EXCLUDED_NAMESPACES)
    (hsep : ∀ c ∈ s.data, isSep c = false) :
    isArticlePage ("https://en.wikipedia.org/wiki/" ++ p ++ s) = false := by
  have hg := ns_all_good p hmem
  simp only [nsGood, Bool.and_eq_true, List.all_eq_true, decide_eq_true_eq] at hg
  obtain ⟨hhead, hall⟩ := hg
  cases hpd : p.data with
  | nil => rw [hpd] at hhead; exact absurd hhead (by simp [nsGoodHead])
  | cons c rest =>
    rw [hpd] at hhead
    simp only [nsGoodHead, Bool.and_eq_true, decide_eq_true_eq] at hhead
    obtain ⟨h1, h2, h3, h4⟩ := hhead
    have hurl : ("https://en.wikipedia.org/wiki/" ++ p ++ s).data =
        "https://en.wikipedia.org/wiki/".data ++ (p.data ++ s.data) := by
      simp [String.data_append, List.append_assoc]
    have ht₁ : (p.data ++ s.data).takeWhile isPathChar =
        p.data ++ s.data.takeWhile isPathChar :=
      takeWhile_append_all _ (fun ch hc => (hall ch hc).2)
    have husep : ∀ ch ∈ p.data ++ s.data.takeWhile isPathChar, isSep ch = false := by
      intro ch hc
      rcases List.mem_append.mp hc with hm | hm
      · exact (hall ch hm).1
      · exact hsep ch ((List.takeWhile_sublist _).subset hm)
    have hseg := segmentsOfL_wiki _ husep
    have hcons : p.data ++ s.data.takeWhile isPathChar =
        c :: (rest ++ s.data.takeWhile isPathChar) := by
      rw [hpd]; rfl
    have hnd := not_dot_head (rest ++ s.data.takeWhile isPathChar) h1 h2 h3 h4
    have hnorm : normalizeSegsL [['w', 'i', 'k', 'i'],
        p.data ++ s.data.takeWhile isPathChar] =
        [['w', 'i', 'k', 'i'], p.data ++ s.data.takeWhile isPathChar] := by
      rw [hcons]
      exact normalizeSegsL_wiki _ hnd.1 hnd.2
    have hparse : parseURL ("https://en.wikipedia.org/wiki/" ++ p ++ s) =
        some { scheme := "https", hostname := "en.wikipedia.org",
               pathname := "/wiki/" ++ ⟨p.data ++ s.data.takeWhile isPathChar⟩ } := by
      rw [parseURL, hurl, parseURLChars_en_wiki, ht₁, hseg, hnorm]
      rfl
    have he : strEndsWith "en.wikipedia.org" ".wikipedia.org" = true := by decide
    have hw := strStartsWith_append "/wiki/"
      (⟨p.data ++ s.data.takeWhile isPathChar⟩ : String)
    have hr := replaceFirst_append "/wiki/"
      (⟨p.data ++ s.data.takeWhile isPathChar⟩ : String)
    have hany : EXCLUDED_NAMESPACES.any
        (fun ns => strStartsWith ⟨p.data ++ s.data.takeWhile isPathChar⟩ ns) = true := by
      refine List.any_eq_true.mpr ⟨p, hmem, ?_⟩
      rw [strStartsWith_eq_true]
      exact List.take_left p.data _
    simp [isArticlePage, hparse, he, hw, hr, hany]

theorem c3_namespace_exclusion_witness :
    isArticlePage ("https://en.wikipedia.org/wiki/" ++ "Special:" ++ "Search") = false :=
  c3_namespace_exclusion "Special:" "Search" (by decide) (by decide)

theorem c4_language_pattern_witness :
    extractLanguage "https://de.wikipedia.org/wiki/Berlin" = some "de" :=
  (c4_language_pattern "https://de.wikipedia.org/wiki/Berlin" "de").mpr
    ⟨{ scheme := "https", hostname := "de.wikipedia.org", pathname := "/wiki/Berlin" },
      by decide, Or.inl (by decide)⟩

end WikiToGrok
